import Mathlib

/-!
Verification development for the cache-key utilities of the run-vcpkg action
(`src/vcpkg-utils.ts`).  The TypeScript source is shallowly embedded: pure
functions become Lean functions, the filesystem / environment / external cache
store become explicit parameters, and JavaScript exceptions become explicit
`Option`/`Except` channels.  JavaScript string truthiness (`if (s)`) is modelled
by `truthy`, which is false exactly on `null`/`undefined` (here `none`) and the
empty string.
-/

namespace RunVcpkg

/-- Log levels of the `baseLib` logger (`debug`, `info`, `warning`, `error`). -/
inductive LogLevel where
  | debug
  | info
  | warning
  | error
deriving DecidableEq, Repr

/-- One emitted log line: a level and its text. -/
structure LogEntry where
  level : LogLevel
  text : String
deriving DecidableEq, Repr

/-- A JavaScript `Error` value: its `name`, `message` and optional `stack`.
The external libraries used by the source (`@actions/cache`, `fast-glob`)
throw `Error` instances, so thrown values are modelled by this structure. -/
structure JsError where
  name : String
  message : String
  stack : Option String
deriving DecidableEq, Repr

/-- JavaScript truthiness of a nullable string: `null`/`undefined` and `""`
are falsy, every other string is truthy. -/
def truthy : Option String → Bool
  | none => false
  | some s => if s = "" then false else true

/-- JavaScript truthiness of a nullable boolean (`undefined` is falsy). -/
def boolTruthy : Option Bool → Bool
  | none => false
  | some b => b

/-- Whitespace as recognized by JavaScript's `String.prototype.trim` (the
ASCII part: space, tab, line feed, carriage return, vertical tab, form
feed). -/
def isJsWhitespace (c : Char) : Bool :=
  c = ' ' || c = '\t' || c = '\n' || c = '\r' || c = '\x0b' || c = '\x0c'

/-- JavaScript `s.trim()`: remove leading and trailing whitespace. -/
def jsTrim (s : String) : String :=
  ⟨((s.data.dropWhile isJsWhitespace).reverse.dropWhile isJsWhitespace).reverse⟩

/-- The string behind a nullable string, `""` for `null`/`undefined`
(JavaScript `x ?? ""`). -/
def optStr (o : Option String) : String := o.getD ""

/-- Case folding used to model `String.localeCompare` with
`sensitivity: "accent"`: under that collator two strings compare equal exactly
when they differ at most in case — base letters and accents still distinguish.
The fold maps ASCII upper-case letters and the Latin-1 accented upper-case
letters (U+00C0..U+00DE except the multiplication sign U+00D7) to their
lower-case forms and leaves every other character unchanged, so accented
letters stay distinct from their base letters. -/
def caseFoldChar (c : Char) : Char :=
  let n := c.toNat
  if 65 ≤ n ∧ n ≤ 90 then Char.ofNat (n + 32)
  else if 192 ≤ n ∧ n ≤ 222 ∧ n ≠ 215 then Char.ofNat (n + 32)
  else c

/-- Equality of two strings under the `sensitivity: "accent"` collator
(case-insensitive, accent-sensitive): `localeCompare(...) === 0`. -/
def localeCompareAccentEq (a b : String) : Bool :=
  a.data.map caseFoldChar == b.data.map caseFoldChar

/-- Base letter of a character, for the spec-side notion of comparison "at
base-letter granularity, ignoring accents and case": case folding followed by
stripping the Latin-1 diacritics (à..å→a, ç→c, è..ë→e, ì..ï→i, ñ→n, ò..ö→o,
ù..ü→u, ý/ÿ→y). -/
def baseLetterChar (c : Char) : Char :=
  let f := caseFoldChar c
  let n := f.toNat
  if 224 ≤ n ∧ n ≤ 229 then 'a'
  else if n = 231 then 'c'
  else if 232 ≤ n ∧ n ≤ 235 then 'e'
  else if 236 ≤ n ∧ n ≤ 239 then 'i'
  else if n = 241 then 'n'
  else if 242 ≤ n ∧ n ≤ 246 then 'o'
  else if 249 ≤ n ∧ n ≤ 252 then 'u'
  else if n = 253 ∨ n = 255 then 'y'
  else f

/-- Spec-side comparison of two strings at base-letter granularity (ignoring
accents and case).  This follows the spec's words, for comparison with the
source's `localeCompareAccentEq`; it is not part of the embedded code. -/
def baseLetterEq (a b : String) : Bool :=
  a.data.map baseLetterChar == b.data.map baseLetterChar

/-- Embedding of `Utils.isExactKeyMatch` (src/vcpkg-utils.ts lines 15-20):
if the candidate `cacheKey` is truthy, compare it to `key` with
`localeCompare(key, undefined, sensitivity: "accent")`, else return false. -/
def isExactKeyMatch (key : String) (cacheKey : Option String) : Bool :=
  match cacheKey with
  | some ck => if ck = "" then false else localeCompareAccentEq ck key
  | none => false

/-- A key set as produced by `createKeySet` of the external library
`@lukka/base-util-lib`: the primary key plus the ordered fallback restore
keys. -/
structure KeySet where
  primary : String
  restoreKeys : List String
deriving DecidableEq, Repr

/-- Modelled from the spec: `createKeySet` lives in the external library
`@lukka/base-util-lib`, not under src/.  Per the spec, the primary key is the
order-sensitive concatenation of the segments (joined with a separator) and
the restore keys are the N-1 progressively shorter prefix keys; with a single
segment there are no restore keys. -/
def createKeySet (segments : List String) : KeySet :=
  { primary := String.intercalate "_" segments
    restoreKeys :=
      ((List.range segments.length).drop 1).reverse.map
        (fun k => String.intercalate "_" (segments.take k)) }

/-- Name of the `@actions/cache` validation error class. -/
def ValidationErrorName : String := "ValidationError"

/-- Name of the `@actions/cache` reservation-conflict error class. -/
def ReserveCacheErrorName : String := "ReserveCacheError"

/-- Behaviour of the external `cache.saveCache(paths, key)` call: either it
succeeds or it throws a `JsError`. -/
inductive SaveOutcome where
  | ok
  | exn (e : JsError)
deriving DecidableEq, Repr

/-- Result of the operation body handed to `wrapOp` inside `Utils.saveCache`
(src/vcpkg-utils.ts lines 130-154): the external save calls performed (paths
and key of each), the log lines emitted, and the exception the body throws,
if any.  `debug`-level tracing and the operation banner printed by `wrapOp`
are not part of the log model. -/
structure SaveOpResult where
  saveCalls : List (List String × String)
  logs : List LogEntry
  thrown : Option JsError
deriving DecidableEq, Repr

/-- Embedding of the async operation body of `Utils.saveCache`
(src/vcpkg-utils.ts lines 130-154).  If the hit key is truthy and exactly
matches the primary key, saving is skipped; otherwise the paths are saved
under the primary key, and a failure of the external save is classified by
its error name: a `ValidationError` is rethrown, a `ReserveCacheError` is
logged at info level, anything else at warning level. -/
def saveCacheOp (keys : KeySet) (hitCacheKey : Option String)
    (cachedPaths : List String) (store : SaveOutcome) : SaveOpResult :=
  if truthy hitCacheKey && isExactKeyMatch keys.primary hitCacheKey then
    { saveCalls := []
      logs := [⟨LogLevel.info,
        "Saving cache is skipped, because cache hit occurred on the cache key \x27"
          ++ keys.primary ++ "\x27."⟩]
      thrown := none }
  else
    let preLogs : List LogEntry :=
      [⟨LogLevel.info,
        "Saving a new cache entry, because primary key was missed or a fallback restore key was hit."⟩,
       ⟨LogLevel.info,
        "Caching paths: \x27" ++ String.intercalate "," cachedPaths ++ "\x27"⟩,
       ⟨LogLevel.info,
        "Saving cache with primary key \x27" ++ keys.primary ++ "\x27 ..."⟩]
    match store with
    | SaveOutcome.ok =>
        { saveCalls := [(cachedPaths, keys.primary)], logs := preLogs, thrown := none }
    | SaveOutcome.exn e =>
        if e.name = ValidationErrorName then
          { saveCalls := [(cachedPaths, keys.primary)], logs := preLogs, thrown := some e }
        else if e.name = ReserveCacheErrorName then
          { saveCalls := [(cachedPaths, keys.primary)]
            logs := preLogs ++ [⟨LogLevel.info, e.message⟩]
            thrown := none }
        else
          { saveCalls := [(cachedPaths, keys.primary)]
            logs := preLogs ++ [⟨LogLevel.warning, e.message⟩]
            thrown := none }

/-- Overall result of `Utils.saveCache`: the save calls, the log lines, and
the exception it raises to its caller, if any. -/
structure SaveResult where
  saveCalls : List (List String × String)
  logs : List LogEntry
  raised : Option JsError
deriving DecidableEq, Repr

/-- Embedding of `Utils.saveCache` (src/vcpkg-utils.ts lines 124-168).
`wrapOp` of `@lukka/base-util-lib` runs the operation body and rethrows its
exception; the surrounding try/catch of lines 156-165 catches every exception
escaping the body, logs a fixed warning followed by the error name, message
and stack at warning level, and returns normally. -/
def saveCache (keys : KeySet) (hitCacheKey : Option String)
    (cachedPaths : List String) (store : SaveOutcome) : SaveResult :=
  let inner := saveCacheOp keys hitCacheKey cachedPaths store
  match inner.thrown with
  | none => { saveCalls := inner.saveCalls, logs := inner.logs, raised := none }
  | some e =>
      { saveCalls := inner.saveCalls
        logs := inner.logs
          ++ [⟨LogLevel.warning, "vcpkg-utils.saveCache() failed!"⟩,
              ⟨LogLevel.warning, e.name⟩,
              ⟨LogLevel.warning, e.message⟩]
          ++ (match e.stack with
              | some st => [⟨LogLevel.warning, st⟩]
              | none => [])
        raised := none }

/-- Whether a path is absolute (POSIX semantics: begins with a slash).  The
embedding models Node's `path` module for POSIX. -/
def isAbsolutePath (p : String) : Bool :=
  match p.data with
  | [] => false
  | c :: _ => c = '/'

/-- Whether a path's text ends with a slash. -/
def endsWithSlash (p : String) : Bool :=
  match p.data.getLast? with
  | some c => c = '/'
  | none => false

/-- Split a character list on slashes into path segments. -/
def splitSegsAux (cur : List Char) : List Char → List (List Char)
  | [] => [cur.reverse]
  | c :: rest =>
      if c = '/' then cur.reverse :: splitSegsAux [] rest
      else splitSegsAux (c :: cur) rest

/-- Path segments of a string (split on slashes). -/
def splitPath (p : String) : List String :=
  (splitSegsAux [] p.data).map (fun l => ⟨l⟩)

/-- Normalize path segments the way Node's `path.normalize` does: drop empty
and `.` segments, resolve `..` against the accumulated prefix (keeping it at
the front of a relative path, dropping it above the root of an absolute
one). -/
def normSegsAux (isAbs : Bool) (acc : List String) : List String → List String
  | [] => acc.reverse
  | seg :: rest =>
      if seg = "" ∨ seg = "." then normSegsAux isAbs acc rest
      else if seg = ".." then
        match acc with
        | [] => if isAbs then normSegsAux isAbs [] rest else normSegsAux isAbs [".."] rest
        | top :: tl =>
            if top = ".." then normSegsAux isAbs (".." :: acc) rest
            else normSegsAux isAbs tl rest
      else normSegsAux isAbs (seg :: acc) rest

/-- Join segments with slashes (no normalization). -/
def joinSegs : List String → String
  | [] => ""
  | s :: rest => rest.foldl (fun acc t => acc ++ "/" ++ t) s

/-- Node `path.normalize` for POSIX paths: collapse slashes, resolve `.` and
`..`, keep a trailing slash, map the empty path to `.`. -/
def pathNormalize (p : String) : String :=
  if p = "" then "."
  else
    let isAbs := isAbsolutePath p
    let body := joinSegs (normSegsAux isAbs [] (splitPath p))
    let core := if isAbs then "/" ++ body else body
    let core := if core = "" then (if isAbs then "/" else ".") else core
    if endsWithSlash p && !(endsWithSlash core) then core ++ "/" else core

/-- Node `path.join`: join the non-empty parts with slashes and normalize;
with nothing to join the result is `.`. -/
def pathJoin (parts : List String) : String :=
  let joined := joinSegs (parts.filter (fun s => s ≠ ""))
  if joined = "" then "." else pathNormalize joined

/-- Drop a trailing slash (except from the root path). -/
def stripTrailingSlash (p : String) : String :=
  if p ≠ "/" ∧ endsWithSlash p then ⟨p.data.dropLast⟩ else p

/-- Node `path.resolve` of a single path against the current working
directory: make it absolute, normalize, drop a trailing slash. -/
def pathResolve (cwd p : String) : String :=
  stripTrailingSlash
    (if isAbsolutePath p then pathNormalize p else pathNormalize (cwd ++ "/" ++ p))

/-- JavaScript `s.replace(pat, "")` with a string pattern: remove the first
occurrence of `pat`, scanning from the left. -/
def removeFirstAux (pat : List Char) : List Char → List Char
  | [] => []
  | c :: rest =>
      if List.isPrefixOf pat (c :: rest) then (c :: rest).drop pat.length
      else c :: removeFirstAux pat rest

/-- JavaScript `s.replace(pat, "")` on strings. -/
def removeFirst (s pat : String) : String := ⟨removeFirstAux pat.data s.data⟩

/-- The filesystem and external git query consumed by `getVcpkgCommitId`:
`existsSync` and `readFileSync` of Node's `fs`, and `getCommitId` for the
external `runvcpkglib.VcpkgRunner.getCommitId(baseUtils, dir)` query. -/
structure Fs where
  existsSync : String → Bool
  readFileSync : String → String
  getCommitId : String → String

/-- The environment signals read by the utilities: `GITHUB_WORKSPACE`,
`ImageOS`, `ImageVersion` (each possibly unset) and `process.platform`. -/
structure Env where
  githubWorkspace : Option String
  imageOS : Option String
  imageVersion : Option String
  platform : String

/-- The `fullVcpkgPath` computed at src/vcpkg-utils.ts lines 39-42: the
directory resolved to an absolute normalized path, joining relative inputs
with the workspace directory. -/
def fullVcpkgPathOf (env : Env) (cwd vcpkgDirectory : String) : String :=
  let workspaceDir := optStr env.githubWorkspace
  if isAbsolutePath vcpkgDirectory then pathNormalize (pathResolve cwd vcpkgDirectory)
  else pathNormalize (pathResolve cwd (pathJoin [workspaceDir, vcpkgDirectory]))

/-- The submodule metadata path of src/vcpkg-utils.ts lines 44-46:
`<workspaceDir>/.git/modules/<relPath>/HEAD` where `relPath` strips the first
occurrence of the workspace directory from the full path. -/
def submodulePathOf (env : Env) (cwd vcpkgDirectory : String) : String :=
  let workspaceDir := optStr env.githubWorkspace
  let relPath := removeFirst (fullVcpkgPathOf env cwd vcpkgDirectory) workspaceDir
  pathJoin [workspaceDir, ".git/modules", relPath, "HEAD"]

/-- The `.git` entry path checked at src/vcpkg-utils.ts line 53. -/
def gitEntryPathOf (env : Env) (cwd vcpkgDirectory : String) : String :=
  pathJoin [fullVcpkgPathOf env cwd vcpkgDirectory, ".git"]

/-- Result of `Utils.getVcpkgCommitId`: the `[id, isSubmodule]` pair it
returns, plus the list of paths whose existence it checked (for stating that
no detection happens at all in some cases). -/
structure CommitIdResult where
  commitId : Option String
  isSubmodule : Option Bool
  checkedPaths : List String
deriving DecidableEq, Repr

/-- Embedding of `Utils.getVcpkgCommitId` (src/vcpkg-utils.ts lines 31-61).
With a falsy `GITHUB_WORKSPACE` nothing is checked and both fields are
`undefined`.  Otherwise the submodule metadata file is probed first: when it
exists its trimmed contents become the commit id with `isSubmodule = true`;
only when it does not exist is the `.git` entry probed, delegating to the
external git query with `isSubmodule = false`; the trailing `id?.trim()`
trims whichever id was found. -/
def getVcpkgCommitId (fs : Fs) (env : Env) (cwd vcpkgDirectory : String) : CommitIdResult :=
  let workspaceDir := optStr env.githubWorkspace
  if workspaceDir = "" then
    { commitId := none, isSubmodule := none, checkedPaths := [] }
  else
    let fullVcpkgPath := fullVcpkgPathOf env cwd vcpkgDirectory
    let submodulePath := submodulePathOf env cwd vcpkgDirectory
    if fs.existsSync submodulePath then
      { commitId := some (jsTrim (fs.readFileSync submodulePath))
        isSubmodule := some true
        checkedPaths := [submodulePath] }
    else
      let gitPath := gitEntryPathOf env cwd vcpkgDirectory
      if fs.existsSync gitPath then
        { commitId := some (jsTrim (fs.getCommitId fullVcpkgPath))
          isSubmodule := some false
          checkedPaths := [submodulePath, gitPath] }
      else
        { commitId := none, isSubmodule := none, checkedPaths := [submodulePath, gitPath] }

/-- The OS/image prefix of the first cache-key segment
(src/vcpkg-utils.ts lines 96-97): `runnerOS=` followed by `ImageOS` when
truthy else the platform name, then `ImageVersion` with no separator. -/
def firstSegmentBase (env : Env) : String :=
  "runnerOS=" ++ (if truthy env.imageOS then optStr env.imageOS else env.platform)
    ++ optStr env.imageVersion

/-- Embedding of the first-segment construction of `Utils.computeCacheKeys`
(src/vcpkg-utils.ts lines 96-115), as a function of the detection result:
a truthy detected commit id is appended (warning about a disregarded user
override when the checkout is a submodule and an override is also truthy);
otherwise a truthy user override is appended; otherwise only the base
remains. -/
def computeFirstSegment (env : Env) (commitId : Option String) (isSubmodule : Option Bool)
    (userProvidedCommitId : Option String) : String × List LogEntry :=
  let base := firstSegmentBase env
  if truthy commitId then
    let seg := base ++ "-vcpkgGitCommit=" ++ optStr commitId
    if boolTruthy isSubmodule then
      if truthy userProvidedCommitId then
        (seg,
         [⟨LogLevel.info,
            "Adding vcpkg submodule Git commit id \x27" ++ optStr commitId ++ "\x27 to cache key"⟩,
          ⟨LogLevel.warning,
            "The provided Git commit id is disregarded: \x27" ++ optStr userProvidedCommitId
              ++ "\x27. Please remove it from the inputs."⟩])
      else
        (seg,
         [⟨LogLevel.info,
            "Adding vcpkg submodule Git commit id \x27" ++ optStr commitId ++ "\x27 to cache key"⟩])
    else
      (seg,
       [⟨LogLevel.info,
          "vcpkg identified at Git commit id \x27" ++ optStr commitId
            ++ "\x27, adding it to the cache\x27s key."⟩])
  else if truthy userProvidedCommitId then
    (base ++ "-vcpkgGitCommit=" ++ optStr userProvidedCommitId,
     [⟨LogLevel.info,
        "Adding user provided vcpkg\x27s Git commit id \x27" ++ optStr userProvidedCommitId
          ++ "\x27 to cache key."⟩])
  else
    (base,
     [⟨LogLevel.info,
        "No vcpkg\x27s commit id was provided, does not contribute to the cache\x27s key."⟩])

/-- Embedding of `Utils.computeCacheKeys` (src/vcpkg-utils.ts lines 88-122):
detect the commit id, build the first segment, and wrap the single segment
into a `KeySet` via the external `createKeySet`. -/
def computeCacheKeys (fs : Fs) (env : Env) (cwd vcpkgDirectory : String)
    (userProvidedCommitId : Option String) : KeySet × List LogEntry :=
  let r := getVcpkgCommitId fs env cwd vcpkgDirectory
  let sl := computeFirstSegment env r.commitId r.isSubmodule userProvidedCommitId
  (createKeySet [sl.1], sl.2)

/-- Value of `runvcpkglib.VCPKG_JSON`, the manifest file name. -/
def VCPKG_JSON : String := "vcpkg.json"

/-- Behaviour of the external `fastglob(vcpkgJsonGlob, ignore)` call: it
either yields the list of matched paths or throws. -/
inductive GlobOutcome where
  | ok (paths : List String)
  | err (e : JsError)
deriving DecidableEq, Repr

/-- Embedding of the try-block body of `Utils.getVcpkgJsonPath`
(src/vcpkg-utils.ts lines 67-77): await the glob (which may throw), then
return the single match with an info log, or null with a warning log when
there are zero or several matches.  The ignore patterns only parameterize the
external glob call, which is abstracted by the `glob` outcome. -/
def getVcpkgJsonPathTry (vcpkgJsonGlob : String) (glob : GlobOutcome) :
    Except JsError (Option String × List LogEntry) :=
  match glob with
  | GlobOutcome.err e => Except.error e
  | GlobOutcome.ok paths =>
      if paths.length = 1 then
        Except.ok (paths.head?,
          [⟨LogLevel.info,
            "Found " ++ VCPKG_JSON ++ " at \x27" ++ paths.headD "" ++ "\x27."⟩])
      else if paths.length > 1 then
        Except.ok (none,
          [⟨LogLevel.warning,
            "The file " ++ VCPKG_JSON ++ " was found multiple times with glob expression \x27"
              ++ vcpkgJsonGlob ++ "\x27."⟩])
      else
        Except.ok (none,
          [⟨LogLevel.warning,
            "The file " ++ VCPKG_JSON ++ " was not found with glob expression \x27"
              ++ vcpkgJsonGlob ++ "\x27."⟩])

/-- Embedding of `Utils.getVcpkgJsonPath` (src/vcpkg-utils.ts lines 63-86):
the catch clause logs the thrown error's message at warning level and the
function returns the still-null result, so no exception escapes. -/
def getVcpkgJsonPath (vcpkgJsonGlob : String) (glob : GlobOutcome) :
    Option String × List LogEntry :=
  match getVcpkgJsonPathTry vcpkgJsonGlob glob with
  | Except.ok r => r
  | Except.error e => (none, [⟨LogLevel.warning, e.message⟩])

/-- First-occurrence deduplication, the order `[...new Set(list)]` produces in
JavaScript: keep each element the first time it appears, dropping later
duplicates; `seen` accumulates the elements already kept. -/
def dedupFirstAux (seen : List String) : List String → List String
  | [] => []
  | x :: rest =>
      if x ∈ seen then dedupFirstAux seen rest
      else x :: dedupFirstAux (x :: seen) rest

/-- Embedding of `Utils.getAllCachedPaths` (src/vcpkg-utils.ts lines 170-182)
as a function of the raw path list returned by the external
`runvcpkglib.getOrdinaryCachedPaths(vcpkgRootDir)`: trim every entry, drop the
falsy (empty) ones, then deduplicate preserving first-occurrence order. -/
def getAllCachedPaths (pathsToCache : List String) : List String :=
  dedupFirstAux [] ((pathsToCache.map jsTrim).filter (fun s => s ≠ ""))

/-- The spec's words for `normalizePaths` (refinement comparison for the
normalizer claim): blank/whitespace-only entries removed and duplicates
removed with first-occurrence order preserved — the surviving entries are
kept verbatim, without trimming them. -/
def normalizePathsSpec (raw : List String) : List String :=
  dedupFirstAux [] (raw.filter (fun s => jsTrim s ≠ ""))

end RunVcpkg

namespace RunVcpkg

/-- The two cache error class names are distinct (helper for proofs that case
on the error name). -/
theorem reserve_ne_validation : ReserveCacheErrorName ≠ ValidationErrorName := by
  decide

/-- Membership in the first-occurrence deduplication: an element is kept
exactly when it occurs in the input and was not already seen. -/
theorem mem_dedupFirstAux (x : String) (l : List String) :
    ∀ seen, x ∈ dedupFirstAux seen l ↔ x ∈ l ∧ x ∉ seen := by
  induction l with
  | nil => intro seen; simp [dedupFirstAux]
  | cons a rest ih =>
      intro seen
      by_cases ha : a ∈ seen
      · by_cases hx : x = a
        · subst hx
          simp [dedupFirstAux, ha, ih]
        · simp [dedupFirstAux, ha, ih, hx]
      · by_cases hx : x = a
        · subst hx
          simp [dedupFirstAux, ha]
        · simp [dedupFirstAux, ha, ih, hx]

/-- The first-occurrence deduplication yields a duplicate-free list. -/
theorem nodup_dedupFirstAux (l : List String) :
    ∀ seen, (dedupFirstAux seen l).Nodup := by
  induction l with
  | nil => intro seen; simp [dedupFirstAux]
  | cons a rest ih =>
      intro seen
      by_cases ha : a ∈ seen
      · simp only [dedupFirstAux]
        rw [if_pos ha]
        exact ih seen
      · simp only [dedupFirstAux]
        rw [if_neg ha]
        simp only [List.nodup_cons]
        refine ⟨?_, ih (a :: seen)⟩
        intro hmem
        rw [mem_dedupFirstAux] at hmem
        exact hmem.2 (List.mem_cons_self a seen)

/-- The first-occurrence deduplication is a sublist of its input, hence it
preserves the input's relative order. -/
theorem sublist_dedupFirstAux (l : List String) :
    ∀ seen, List.Sublist (dedupFirstAux seen l) l := by
  induction l with
  | nil => intro seen; simp [dedupFirstAux]
  | cons a rest ih =>
      intro seen
      by_cases ha : a ∈ seen
      · simp only [dedupFirstAux]
        rw [if_pos ha]
        exact List.Sublist.cons a (ih seen)
      · simp only [dedupFirstAux]
        rw [if_neg ha]
        exact List.Sublist.cons₂ a (ih (a :: seen))

/-- Claim C1 counterexample: "é" and "e" differ only by an accent, so the
claimed accent-insensitive (base-letter) comparison equates them, yet
`isExactKeyMatch` returns false on them: the comparison the code performs is
accent-sensitive. -/
theorem isExactKeyMatch_c1_counterexample :
    baseLetterEq "é" "e" = true ∧ isExactKeyMatch "e" (some "é") = false := by
  decide

/-- C1 (amended): `isExactKeyMatch key cacheKey` returns true exactly when the
candidate is present, non-empty, and equal to `key` under a case-insensitive
but accent-sensitive comparison (equality of the case-folded character
sequences); pairs that differ in a base letter or in an accent, and absent or
empty candidates, yield false. -/
theorem isExactKeyMatch_characterization (key : String) (cacheKey : Option String) :
    isExactKeyMatch key cacheKey = true ↔
      ∃ s, cacheKey = some s ∧ s ≠ "" ∧
        s.data.map caseFoldChar = key.data.map caseFoldChar := by
  cases cacheKey with
  | none => simp [isExactKeyMatch]
  | some s =>
      by_cases hs : s = ""
      · subst hs
        simp [isExactKeyMatch]
      · simp [isExactKeyMatch, hs, localeCompareAccentEq]

/-- C10: an empty-string candidate hit key is treated like an absent one:
`isExactKeyMatch key (some "")` is false for every `key`, in particular for
`key = ""`, so the predicate is not reflexive on the empty string. -/
theorem isExactKeyMatch_empty_candidate (key : String) :
    isExactKeyMatch key (some "") = false ∧ isExactKeyMatch "" (some "") = false := by
  constructor
  · simp [isExactKeyMatch]
  · simp [isExactKeyMatch]

/-- Claim C2 counterexample: with a store that throws a `ValidationError` on
an input that reaches the save attempt (the save call is performed), `saveCache`
still raises nothing to its caller — the validation error does not propagate
out of `saveCache`, so the run does not fail. -/
theorem saveCache_c2_counterexample :
    (saveCache ⟨"key1", []⟩ none ["p1"]
        (SaveOutcome.exn ⟨"ValidationError", "bad request", none⟩)).saveCalls
      = [(["p1"], "key1")]
    ∧ (saveCache ⟨"key1", []⟩ none ["p1"]
        (SaveOutcome.exn ⟨"ValidationError", "bad request", none⟩)).raised = none := by
  decide

/-- C2 (amended): a validation-class error thrown by the external save call is
rethrown out of the inner save attempt (the operation body throws it), but
`saveCache`'s top-level catch swallows it: `saveCache` returns normally with
nothing raised, logging the fixed failure text and the error's message at
warning level instead of letting the error reach its caller. -/
theorem saveCache_validation_swallowed (keys : KeySet) (hit : Option String)
    (paths : List String) (e : JsError)
    (hname : e.name = ValidationErrorName)
    (hmiss : (truthy hit && isExactKeyMatch keys.primary hit) = false) :
    (saveCacheOp keys hit paths (SaveOutcome.exn e)).thrown = some e
    ∧ (saveCache keys hit paths (SaveOutcome.exn e)).raised = none
    ∧ LogEntry.mk LogLevel.warning "vcpkg-utils.saveCache() failed!"
        ∈ (saveCache keys hit paths (SaveOutcome.exn e)).logs
    ∧ LogEntry.mk LogLevel.warning e.message
        ∈ (saveCache keys hit paths (SaveOutcome.exn e)).logs := by
  refine ⟨?_, ?_, ?_, ?_⟩ <;>
    simp [saveCache, saveCacheOp, hmiss, hname]

/-- Witness for the amended C2 theorem at concrete inputs. -/
theorem saveCache_validation_swallowed_witness :
    (saveCacheOp ⟨"k", []⟩ none ["p"]
        (SaveOutcome.exn ⟨"ValidationError", "msg", none⟩)).thrown
      = some ⟨"ValidationError", "msg", none⟩
    ∧ (saveCache ⟨"k", []⟩ none ["p"]
        (SaveOutcome.exn ⟨"ValidationError", "msg", none⟩)).raised = none
    ∧ LogEntry.mk LogLevel.warning "vcpkg-utils.saveCache() failed!"
        ∈ (saveCache ⟨"k", []⟩ none ["p"]
            (SaveOutcome.exn ⟨"ValidationError", "msg", none⟩)).logs
    ∧ LogEntry.mk LogLevel.warning "msg"
        ∈ (saveCache ⟨"k", []⟩ none ["p"]
            (SaveOutcome.exn ⟨"ValidationError", "msg", none⟩)).logs :=
  saveCache_validation_swallowed ⟨"k", []⟩ none ["p"]
    ⟨"ValidationError", "msg", none⟩ rfl rfl

/-- C4: `saveCache` calls the external store's save exactly once, with the
given paths under the primary key, unless the hit key is present (truthy) and
exactly matches the primary key per `isExactKeyMatch`, in which case no save
call is made — for every store behaviour. -/
theorem saveCache_save_decision (keys : KeySet) (hit : Option String)
    (paths : List String) (store : SaveOutcome) :
    (saveCache keys hit paths store).saveCalls =
      if truthy hit && isExactKeyMatch keys.primary hit then []
      else [(paths, keys.primary)] := by
  by_cases h : (truthy hit && isExactKeyMatch keys.primary hit) = true
  · simp [saveCache, saveCacheOp, h]
  · rw [Bool.not_eq_true] at h
    cases store with
    | ok => simp [saveCache, saveCacheOp, h]
    | exn e =>
        by_cases hv : e.name = ValidationErrorName
        · simp [saveCache, saveCacheOp, h, hv]
        · by_cases hr : e.name = ReserveCacheErrorName
          · simp [saveCache, saveCacheOp, h, hv, hr, reserve_ne_validation]
          · simp [saveCache, saveCacheOp, h, hv, hr]

/-- C6: when the external save call fails with a non-validation error on an
input that reaches the save attempt, `saveCache` raises nothing to its
caller; a reservation-conflict error (`ReserveCacheError`) is logged at info
level with no warning-level entry anywhere in the log, while any other
non-validation error is logged at warning level. -/
theorem saveCache_nonvalidation_swallowed (keys : KeySet) (hit : Option String)
    (paths : List String) (e : JsError)
    (hmiss : (truthy hit && isExactKeyMatch keys.primary hit) = false)
    (hname : e.name ≠ ValidationErrorName) :
    (saveCache keys hit paths (SaveOutcome.exn e)).raised = none
    ∧ (e.name = ReserveCacheErrorName →
        LogEntry.mk LogLevel.info e.message
          ∈ (saveCache keys hit paths (SaveOutcome.exn e)).logs
        ∧ ∀ entry ∈ (saveCache keys hit paths (SaveOutcome.exn e)).logs,
            entry.level ≠ LogLevel.warning)
    ∧ (e.name ≠ ReserveCacheErrorName →
        LogEntry.mk LogLevel.warning e.message
          ∈ (saveCache keys hit paths (SaveOutcome.exn e)).logs) := by
  by_cases hr : e.name = ReserveCacheErrorName
  · refine ⟨?_, fun _ => ⟨?_, ?_⟩, fun hc => absurd hr hc⟩
    · simp [saveCache, saveCacheOp, hmiss, hname, hr, reserve_ne_validation]
    · simp [saveCache, saveCacheOp, hmiss, hname, hr, reserve_ne_validation]
    · simp [saveCache, saveCacheOp, hmiss, hname, hr, reserve_ne_validation]
  · refine ⟨?_, fun hc => absurd hc hr, fun _ => ?_⟩
    · simp [saveCache, saveCacheOp, hmiss, hname, hr]
    · simp [saveCache, saveCacheOp, hmiss, hname, hr]

/-- Witness for the C6 theorem at concrete inputs (reservation conflict). -/
theorem saveCache_nonvalidation_swallowed_witness :
    (saveCache ⟨"k", []⟩ none ["p"]
        (SaveOutcome.exn ⟨"ReserveCacheError", "already reserved", none⟩)).raised = none
    ∧ LogEntry.mk LogLevel.info "already reserved"
        ∈ (saveCache ⟨"k", []⟩ none ["p"]
            (SaveOutcome.exn ⟨"ReserveCacheError", "already reserved", none⟩)).logs
    ∧ ∀ entry ∈ (saveCache ⟨"k", []⟩ none ["p"]
        (SaveOutcome.exn ⟨"ReserveCacheError", "already reserved", none⟩)).logs,
        entry.level ≠ LogLevel.warning := by
  have h := saveCache_nonvalidation_swallowed ⟨"k", []⟩ none ["p"]
    ⟨"ReserveCacheError", "already reserved", none⟩ rfl (by decide)
  exact ⟨h.1, (h.2.1 rfl).1, (h.2.1 rfl).2⟩

/-- C8: `getVcpkgJsonPath` returns the single matched path exactly when the
glob yields one match; with zero or several matches, and when the glob call
throws, it returns null and some warning-level log line is emitted; no log
line is ever at error (fatal) level; and when the glob throws, the body
raises but the catch produces a plain result, so the function itself never
raises. -/
theorem getVcpkgJsonPath_never_raises (g : String) (glob : GlobOutcome) :
    (getVcpkgJsonPath g glob).1 =
      (match glob with
       | GlobOutcome.ok l => if l.length = 1 then l.head? else none
       | GlobOutcome.err _ => none)
    ∧ ((match glob with
        | GlobOutcome.ok l => l.length ≠ 1
        | GlobOutcome.err _ => True) →
          ∃ t, LogEntry.mk LogLevel.warning t ∈ (getVcpkgJsonPath g glob).2)
    ∧ (∀ entry ∈ (getVcpkgJsonPath g glob).2, entry.level ≠ LogLevel.error)
    ∧ (∀ e, glob = GlobOutcome.err e →
        getVcpkgJsonPathTry g glob = Except.error e
        ∧ getVcpkgJsonPath g glob = (none, [⟨LogLevel.warning, e.message⟩])) := by
  cases glob with
  | err e =>
      refine ⟨rfl, fun _ => ⟨e.message, ?_⟩, ?_, ?_⟩
      · simp [getVcpkgJsonPath, getVcpkgJsonPathTry]
      · intro entry hmem
        simp [getVcpkgJsonPath, getVcpkgJsonPathTry] at hmem
        simp [hmem]
      · intro f hf
        cases hf
        exact ⟨rfl, rfl⟩
  | ok l =>
      by_cases h1 : l.length = 1
      · refine ⟨?_, fun hne => absurd h1 hne, ?_, ?_⟩
        · simp [getVcpkgJsonPath, getVcpkgJsonPathTry, h1]
        · intro entry hmem
          simp [getVcpkgJsonPath, getVcpkgJsonPathTry, h1] at hmem
          simp [hmem]
        · intro f hf
          cases hf
      · by_cases h2 : l.length > 1
        · refine ⟨?_, fun _ => ?_, ?_, ?_⟩
          · simp [getVcpkgJsonPath, getVcpkgJsonPathTry, h1, h2]
          · refine ⟨"The file " ++ VCPKG_JSON
              ++ " was found multiple times with glob expression \x27" ++ g ++ "\x27.", ?_⟩
            simp [getVcpkgJsonPath, getVcpkgJsonPathTry, h1, h2]
          · intro entry hmem
            simp [getVcpkgJsonPath, getVcpkgJsonPathTry, h1, h2] at hmem
            simp [hmem]
          · intro f hf
            cases hf
        · refine ⟨?_, fun _ => ?_, ?_, ?_⟩
          · simp [getVcpkgJsonPath, getVcpkgJsonPathTry, h1, h2]
          · refine ⟨"The file " ++ VCPKG_JSON
              ++ " was not found with glob expression \x27" ++ g ++ "\x27.", ?_⟩
            simp [getVcpkgJsonPath, getVcpkgJsonPathTry, h1, h2]
          · intro entry hmem
            simp [getVcpkgJsonPath, getVcpkgJsonPathTry, h1, h2] at hmem
            simp [hmem]
          · intro f hf
            cases hf

/-- Witness for the C8 theorem at concrete inputs (zero matches). -/
theorem getVcpkgJsonPath_never_raises_witness :
    (getVcpkgJsonPath "pattern" (GlobOutcome.ok [])).1 = none
    ∧ (∃ t, LogEntry.mk LogLevel.warning t
        ∈ (getVcpkgJsonPath "pattern" (GlobOutcome.ok [])).2) := by
  have h := getVcpkgJsonPath_never_raises "pattern" (GlobOutcome.ok [])
  exact ⟨h.1, h.2.1 (by decide)⟩

/-- Claim C7 counterexample: on input `[" a", "a"]` the code trims the first
entry and then deduplicates, returning `["a"]`, while the claimed behaviour
(remove only blank entries and duplicates, keeping surviving entries
verbatim) returns `[" a", "a"]`. -/
theorem getAllCachedPaths_c7_counterexample :
    getAllCachedPaths [" a", "a"] = ["a"]
    ∧ normalizePathsSpec [" a", "a"] = [" a", "a"]
    ∧ getAllCachedPaths [" a", "a"] ≠ normalizePathsSpec [" a", "a"] := by
  decide

/-- C7 (amended): `getAllCachedPaths` first trims every entry, then removes
blank entries and duplicates preserving first-occurrence order: the result is
duplicate-free, is an order-preserving sublist of the trimmed-and-filtered
input, contains exactly the non-empty trimmed entries, and on the spec's
example `["a", " ", "b", "a", ""]` yields `["a", "b"]`. -/
theorem getAllCachedPaths_characterization (l : List String) :
    (getAllCachedPaths l).Nodup
    ∧ List.Sublist (getAllCachedPaths l) ((l.map jsTrim).filter (fun s => s ≠ ""))
    ∧ (∀ s, s ∈ getAllCachedPaths l ↔ s ∈ (l.map jsTrim).filter (fun s => s ≠ ""))
    ∧ getAllCachedPaths ["a", " ", "b", "a", ""] = ["a", "b"] := by
  refine ⟨nodup_dedupFirstAux _ _, sublist_dedupFirstAux _ _, ?_, by decide⟩
  intro s
  rw [getAllCachedPaths, mem_dedupFirstAux]
  simp

/-- C3: the commit-id contribution to the first key segment follows the
strict precedence: a truthy detected commit id is appended as
`-vcpkgGitCommit=<id>` and the user override never contributes to the
segment; otherwise a truthy override is appended; otherwise the segment is
just the OS/image base.  A warning is emitted exactly when a truthy commit id
was detected for a submodule and a truthy override was also supplied; the
`KeySet` of `computeCacheKeys` is built from exactly this segment. -/
theorem computeCacheKeys_commit_precedence (env : Env) (commitId : Option String)
    (isSubmodule : Option Bool) (ov : Option String) :
    (computeFirstSegment env commitId isSubmodule ov).1 =
      (if truthy commitId then firstSegmentBase env ++ "-vcpkgGitCommit=" ++ optStr commitId
       else if truthy ov then firstSegmentBase env ++ "-vcpkgGitCommit=" ++ optStr ov
       else firstSegmentBase env)
    ∧ ((∃ t, LogEntry.mk LogLevel.warning t ∈ (computeFirstSegment env commitId isSubmodule ov).2)
        ↔ truthy commitId = true ∧ boolTruthy isSubmodule = true ∧ truthy ov = true)
    ∧ (∀ fs cwd dir, (computeCacheKeys fs env cwd dir ov).1 =
        createKeySet [(computeFirstSegment env (getVcpkgCommitId fs env cwd dir).commitId
          (getVcpkgCommitId fs env cwd dir).isSubmodule ov).1]) := by
  refine ⟨?_, ?_, fun fs cwd dir => rfl⟩
  · by_cases hc : truthy commitId = true
    · by_cases hs : boolTruthy isSubmodule = true
      · by_cases ho : truthy ov = true
        · simp [computeFirstSegment, hc, hs, ho]
        · rw [Bool.not_eq_true] at ho
          simp [computeFirstSegment, hc, hs, ho]
      · rw [Bool.not_eq_true] at hs
        simp [computeFirstSegment, hc, hs]
    · rw [Bool.not_eq_true] at hc
      by_cases ho : truthy ov = true
      · simp [computeFirstSegment, hc, ho]
      · rw [Bool.not_eq_true] at ho
        simp [computeFirstSegment, hc, ho]
  · by_cases hc : truthy commitId = true
    · by_cases hs : boolTruthy isSubmodule = true
      · by_cases ho : truthy ov = true
        · simp [computeFirstSegment, hc, hs, ho]
        · rw [Bool.not_eq_true] at ho
          simp [computeFirstSegment, hc, hs, ho]
      · rw [Bool.not_eq_true] at hs
        simp [computeFirstSegment, hc, hs]
    · rw [Bool.not_eq_true] at hc
      by_cases ho : truthy ov = true
      · simp [computeFirstSegment, hc, ho]
      · rw [Bool.not_eq_true] at ho
        simp [computeFirstSegment, hc, ho]

/-- C5: when the workspace directory is truthy, existence of the submodule
metadata file `<workspaceDir>/.git/modules/<relPath>/HEAD` always wins: the
commit id is the trimmed contents of that file with `isSubmodule = true`, for
every filesystem — in particular regardless of whether a `.git` entry also
exists; and the `.git`-entry branch (external git query, `isSubmodule =
false`) is taken only when the submodule file does not exist. -/
theorem getVcpkgCommitId_submodule_priority (fs : Fs) (env : Env) (cwd dir : String)
    (hws : optStr env.githubWorkspace ≠ "") :
    (fs.existsSync (submodulePathOf env cwd dir) = true →
      getVcpkgCommitId fs env cwd dir =
        { commitId := some (jsTrim (fs.readFileSync (submodulePathOf env cwd dir)))
          isSubmodule := some true
          checkedPaths := [submodulePathOf env cwd dir] })
    ∧ (fs.existsSync (submodulePathOf env cwd dir) = false →
       fs.existsSync (gitEntryPathOf env cwd dir) = true →
       getVcpkgCommitId fs env cwd dir =
         { commitId := some (jsTrim (fs.getCommitId (fullVcpkgPathOf env cwd dir)))
           isSubmodule := some false
           checkedPaths := [submodulePathOf env cwd dir, gitEntryPathOf env cwd dir] }) := by
  constructor
  · intro hsub
    simp [getVcpkgCommitId, hws, hsub]
  · intro hsub hgit
    simp [getVcpkgCommitId, hws, hsub, hgit]

/-- Witness for the C5 theorem: a filesystem on which every path exists (so
both the submodule metadata file and the `.git` entry are present); the
submodule branch is taken and the file contents are trimmed. -/
theorem getVcpkgCommitId_submodule_priority_witness :
    (getVcpkgCommitId ⟨fun _ => true, fun _ => " abc123\n", fun _ => "deadbeef"⟩
        ⟨some "/ws", none, none, "linux"⟩ "/cw" "vcpkg").commitId = some "abc123"
    ∧ (getVcpkgCommitId ⟨fun _ => true, fun _ => " abc123\n", fun _ => "deadbeef"⟩
        ⟨some "/ws", none, none, "linux"⟩ "/cw" "vcpkg").isSubmodule = some true := by
  have h := (getVcpkgCommitId_submodule_priority
    ⟨fun _ => true, fun _ => " abc123\n", fun _ => "deadbeef"⟩
    ⟨some "/ws", none, none, "linux"⟩ "/cw" "vcpkg" (by decide)).1 rfl
  rw [h]
  constructor <;> rfl

/-- C9: with `GITHUB_WORKSPACE` unset or empty, `getVcpkgCommitId` returns
`[undefined, undefined]` for every filesystem and target directory, checking
the existence of no path at all. -/
theorem getVcpkgCommitId_no_workspace (fs : Fs) (env : Env) (cwd dir : String)
    (h : env.githubWorkspace = none ∨ env.githubWorkspace = some "") :
    getVcpkgCommitId fs env cwd dir =
      { commitId := none, isSubmodule := none, checkedPaths := [] } := by
  rcases h with h | h <;> simp [getVcpkgCommitId, optStr, h]

/-- Witness for the C9 theorem at a concrete filesystem on which every path
exists, yet nothing is detected because the workspace is unset. -/
theorem getVcpkgCommitId_no_workspace_witness :
    getVcpkgCommitId ⟨fun _ => true, fun _ => "x", fun _ => "y"⟩
        ⟨none, none, none, "linux"⟩ "/cw" "vcpkg"
      = { commitId := none, isSubmodule := none, checkedPaths := [] } :=
  getVcpkgCommitId_no_workspace ⟨fun _ => true, fun _ => "x", fun _ => "y"⟩
    ⟨none, none, none, "linux"⟩ "/cw" "vcpkg" (Or.inl rfl)

end RunVcpkg
